import Mathlib

set_option maxRecDepth 100000

/-!
Verification of the zenodo-dl core library (`src/lib/lib.rs`).

The library downloads all files of a Zenodo record: it fetches the record
manifest, normalizes it into a file list, and sequentially downloads each
file to `target_folder/filename`, verifying an MD5 checksum, skipping
files already present with the right digest, and optionally aborting the
batch on the first failure.

Embedding choices:
* Byte strings are `List Nat` (each element a byte value); text strings
  are `List Char`.  Rust `str::find` and byte slicing are modelled at the
  byte/char level by structurally identical list functions.
* MD5 (the external `md5` crate used through `verify_checksum`) is
  implemented in full, so checksum statements are about the real digest.
* Effectful calls (filesystem, HTTP) are determinized by explicit
  environment records: one `CheckEnv`/`DlEnv` per manifest entry fixes
  the outcome of every fallible operation the code performs at that
  entry's target path.  Functions that can panic in Rust (`unwrap`,
  out-of-bounds slicing) return `Option`, `none` meaning a panic.
-/

namespace ZenodoDl

/-! ### MD5 (the digest computed by `verify_checksum` via the `md5` crate) -/

/-- Addition modulo 2^32. -/
def add32 (a b : Nat) : Nat := (a + b) % 2 ^ 32

/-- Bitwise complement on 32-bit words. -/
def not32 (a : Nat) : Nat := 4294967295 ^^^ a

/-- Left rotation of a 32-bit word by `n` bits (`0 ≤ n < 32`). -/
def rotl32 (x n : Nat) : Nat := ((x <<< n) ||| (x >>> (32 - n))) % 2 ^ 32

/-- The 64 MD5 round constants `K[i] = floor(2^32 * abs(sin(i+1)))`. -/
def kTable : List Nat :=
  [0xd76aa478, 0xe8c7b756, 0x242070db, 0xc1bdceee,
   0xf57c0faf, 0x4787c62a, 0xa8304613, 0xfd469501,
   0x698098d8, 0x8b44f7af, 0xffff5bb1, 0x895cd7be,
   0x6b901122, 0xfd987193, 0xa679438e, 0x49b40821,
   0xf61e2562, 0xc040b340, 0x265e5a51, 0xe9b6c7aa,
   0xd62f105d, 0x02441453, 0xd8a1e681, 0xe7d3fbc8,
   0x21e1cde6, 0xc33707d6, 0xf4d50d87, 0x455a14ed,
   0xa9e3e905, 0xfcefa3f8, 0x676f02d9, 0x8d2a4c8a,
   0xfffa3942, 0x8771f681, 0x6d9d6122, 0xfde5380c,
   0xa4beea44, 0x4bdecfa9, 0xf6bb4b60, 0xbebfbc70,
   0x289b7ec6, 0xeaa127fa, 0xd4ef3085, 0x04881d05,
   0xd9d4d039, 0xe6db99e5, 0x1fa27cf8, 0xc4ac5665,
   0xf4292244, 0x432aff97, 0xab9423a7, 0xfc93a039,
   0x655b59c3, 0x8f0ccc92, 0xffeff47d, 0x85845dd1,
   0x6fa87e4f, 0xfe2ce6e0, 0xa3014314, 0x4e0811a1,
   0xf7537e82, 0xbd3af235, 0x2ad7d2bb, 0xeb86d391]

/-- The 64 per-round left-rotation amounts of MD5. -/
def sTable : List Nat :=
  [7, 12, 17, 22, 7, 12, 17, 22, 7, 12, 17, 22, 7, 12, 17, 22,
   5, 9, 14, 20, 5, 9, 14, 20, 5, 9, 14, 20, 5, 9, 14, 20,
   4, 11, 16, 23, 4, 11, 16, 23, 4, 11, 16, 23, 4, 11, 16, 23,
   6, 10, 15, 21, 6, 10, 15, 21, 6, 10, 15, 21, 6, 10, 15, 21]

/-- One MD5 round: transforms the running state `(a,b,c,d)` using message
word schedule `m` at round index `i`. -/
def md5Step (m : List Nat) (st : Nat × Nat × Nat × Nat) (i : Nat) : Nat × Nat × Nat × Nat :=
  let a := st.1
  let b := st.2.1
  let c := st.2.2.1
  let d := st.2.2.2
  let fg : Nat × Nat :=
    if i < 16 then ((b &&& c) ||| (not32 b &&& d), i)
    else if i < 32 then ((d &&& b) ||| (not32 d &&& c), (5 * i + 1) % 16)
    else if i < 48 then (b ^^^ c ^^^ d, (3 * i + 5) % 16)
    else (c ^^^ (b ||| not32 d), (7 * i) % 16)
  let f := add32 (add32 (add32 fg.1 a) (kTable.getD i 0)) (m.getD fg.2 0)
  (d, add32 b (rotl32 f (sTable.getD i 0)), b, c)

/-- Decode a 64-byte block into 16 little-endian 32-bit words. -/
def toWords (block : List Nat) : List Nat :=
  (List.range 16).map (fun i =>
    block.getD (4 * i) 0 + 256 * block.getD (4 * i + 1) 0 +
    65536 * block.getD (4 * i + 2) 0 + 16777216 * block.getD (4 * i + 3) 0)

/-- Absorb one 64-byte block into the MD5 state. -/
def md5Block (st : Nat × Nat × Nat × Nat) (block : List Nat) : Nat × Nat × Nat × Nat :=
  let m := toWords block
  let r := (List.range 64).foldl (md5Step m) st
  (add32 st.1 r.1, add32 st.2.1 r.2.1, add32 st.2.2.1 r.2.2.1, add32 st.2.2.2 r.2.2.2)

/-- Absorb all 64-byte blocks of `l` (fuel-indexed so the recursion is
structural; fuel `l.length` suffices since every step consumes bytes). -/
def md5BlocksAux : Nat → (Nat × Nat × Nat × Nat) → List Nat → Nat × Nat × Nat × Nat
  | 0, st, _ => st
  | _ + 1, st, [] => st
  | n + 1, st, x :: xs => md5BlocksAux n (md5Block st ((x :: xs).take 64)) ((x :: xs).drop 64)

/-- The eight little-endian bytes of `n` (a 64-bit length field). -/
def le64bytes (n : Nat) : List Nat := (List.range 8).map (fun i => (n >>> (8 * i)) % 256)

/-- MD5 padding: append `0x80`, zero bytes up to 56 mod 64, then the
bit length of the message as a little-endian 64-bit value. -/
def padMsg (msg : List Nat) : List Nat :=
  msg ++ [128] ++ List.replicate ((119 - msg.length % 64) % 64) 0 ++
    le64bytes ((msg.length * 8) % 2 ^ 64)

/-- The four little-endian bytes of a 32-bit word. -/
def le32bytes (n : Nat) : List Nat :=
  [n % 256, (n >>> 8) % 256, (n >>> 16) % 256, (n >>> 24) % 256]

/-- The 16-byte MD5 digest of a byte string. -/
def md5Bytes (msg : List Nat) : List Nat :=
  let padded := padMsg msg
  let st := md5BlocksAux padded.length (0x67452301, 0xefcdab89, 0x98badcfe, 0x10325476) padded
  le32bytes st.1 ++ le32bytes st.2.1 ++ le32bytes st.2.2.1 ++ le32bytes st.2.2.2

/-- Lowercase hexadecimal digit for `n < 16`. -/
def hexDigit (n : Nat) : Char := if n < 10 then Char.ofNat (48 + n) else Char.ofNat (87 + n)

/-- Two lowercase hex digits of a byte (the `{:02x}` rendering). -/
def byteToHex (b : Nat) : List Char := [hexDigit (b / 16), hexDigit (b % 16)]

/-- The MD5 digest of a byte string rendered as 32 lowercase hex
characters, as `verify_checksum` renders it with `format!("\x7b:02x\x7d", ...)`. -/
def md5Hex (msg : List Nat) : List Char := ((md5Bytes msg).map byteToHex).flatten

/-- Bytes of an ASCII string, for concrete test inputs. -/
def strBytes (s : String) : List Nat := s.toList.map Char.toNat

/-! ### `verify_checksum` (lib.rs lines 59-73)

The Rust function reads the whole file into the hasher with `io::copy`;
on a read error it returns `false`, otherwise it compares the lowercase
hex digest with `checksum` by string equality.  The embedding abstracts
the file handle as the result of that read: `some bytes` for a
successful read of the file content, `none` for an I/O error. -/

def verify_checksum (readResult : Option (List Nat)) (checksum : List Char) : Bool :=
  match readResult with
  | some bytes => md5Hex bytes == checksum
  | none => false

/-! ### `check_existing_file` (lib.rs lines 76-104) -/

/-- Per-path filesystem environment for one `check_existing_file` call:
what is at the target path and how each fallible syscall there behaves.
`existing = none` covers both "path does not exist" and "path is not a
regular file" (the code tests `exists() && is_file()`). -/
structure CheckEnv where
  existing : Option (List Nat)
  openOk : Bool
  readOk : Bool
  deleteOk : Bool
  deriving DecidableEq, Repr

/-- What `verify_checksum` sees when the existing file is opened in the
environment `ce`: the content on a successful read, `none` on a read error. -/
def readExisting (ce : CheckEnv) (content : List Nat) : Option (List Nat) :=
  if ce.readOk then some content else none

/-- Function `check_existing_file` returns the skip decision; the embedding also
returns the file state left at the path (`none` = no file).  Mirrors the
source: missing/non-regular path or failed open leave `skip = false`; a
matching checksum sets `skip = true`; a mismatch deletes the file
(`skip = false`) or, if deletion fails, keeps it (`skip = true`). -/
def check_existing_file (ce : CheckEnv) (checksum : List Char) : Bool × Option (List Nat) :=
  match ce.existing with
  | none => (false, none)
  | some content =>
    if ce.openOk then
      if verify_checksum (readExisting ce content) checksum then (true, some content)
      else if ce.deleteOk then (false, none)
      else (true, some content)
    else (false, some content)

/-! ### `download_file` (lib.rs lines 107-153) -/

/-- The distinct error exits of `download_file` (the Rust function
returns `Err(String)`; the strings are constants, one per exit). -/
inductive DlError where
  | netErr
  | pbErr
  | createErr
  | writeErr
  | flushErr
  | removeErr
  deriving DecidableEq, Repr

/-- Per-call environment for one `download_file` call.  `chunks` is the
sequence of items produced by `res.bytes_stream()`: `some bytes` is a
data chunk, `none` is a transport error item (on which the code calls
`item.unwrap()` and panics).  `writeOk` determines whether `write_all`
succeeds (when it fails, it fails at the first chunk written). -/
structure DlEnv where
  getOk : Bool
  pbOk : Bool
  createOk : Bool
  chunks : List (Option (List Nat))
  writeOk : Bool
  flushOk : Bool
  reopenOk : Bool
  rereadOk : Bool
  deleteOk : Bool
  deriving DecidableEq, Repr

/-- The streaming loop of `download_file`: unwrap each item (a `none`
item is a panic, hence the outer `Option`), then append it to the file;
a write failure surfaces as `Except.error` carrying the bytes already
in the file. -/
def writeChunks (writeOk : Bool) : List (Option (List Nat)) → List Nat →
    Option (Except (List Nat) (List Nat))
  | [], acc => some (Except.ok acc)
  | none :: _, _ => none
  | some c :: rest, acc =>
    if writeOk then writeChunks writeOk rest (acc ++ c) else some (Except.error acc)

/-- Function `download_file`, on the file state `prior` at the target path.
Returns `none` on panic; otherwise the `Result<bool, String>` of the
source paired with the file state left at the path.  Mirrors the source
order: HTTP GET, progress-bar style creation (whose failure aborts via
`?`), `File::create` (truncates to empty), the chunk loop, flush,
re-open + `verify_checksum`, and deletion on mismatch. -/
def download_file (de : DlEnv) (checksum : List Char) (prior : Option (List Nat)) :
    Option (Except DlError Bool × Option (List Nat)) :=
  if ¬de.getOk then some (Except.error DlError.netErr, prior)
  else if ¬de.pbOk then some (Except.error DlError.pbErr, prior)
  else if ¬de.createOk then some (Except.error DlError.createErr, prior)
  else
    match writeChunks de.writeOk de.chunks [] with
    | none => none
    | some (Except.error part0) => some (Except.error DlError.writeErr, some part0)
    | some (Except.ok body) =>
      if ¬de.flushOk then some (Except.error DlError.flushErr, some body)
      else
        let success :=
          if de.reopenOk then verify_checksum (if de.rereadOk then some body else none) checksum
          else false
        if success then some (Except.ok true, some body)
        else if de.deleteOk then some (Except.ok false, none)
        else some (Except.error DlError.removeErr, some body)

/-! ### `download_files` (lib.rs lines 156-181) -/

/-- The per-entry environment: the filesystem at the entry's target path
`target_folder/filename` and the network behaviour of its download. -/
structure EntryEnv where
  ce : CheckEnv
  de : DlEnv
  deriving DecidableEq, Repr

/-- The loop body of `download_files` for one entry: `check_existing_file`
then, unless skipped, `download_file`; an `Err` from the download is
normalized to `false` (`Err(_) => false`).  Returns `none` on panic,
otherwise whether this entry set `error_encountered` together with the
file state left at the entry's path. -/
def processEntry (env : EntryEnv) (checksum : List Char) : Option (Bool × Option (List Nat)) :=
  let checked := check_existing_file env.ce checksum
  if checked.1 then some (false, checked.2)
  else
    match download_file env.de checksum checked.2 with
    | none => none
    | some (Except.ok success, file) => some (!success, file)
    | some (Except.error _, file) => some (true, file)

/-- Observable outcome of the batch at one entry: `untouched` when the
loop body never ran for it (after a `break`, or guarded out by
`error_encountered`), else the error flag and file state it produced. -/
inductive EntryResult where
  | untouched
  | processed (err : Bool) (file : Option (List Nat))
  deriving DecidableEq, Repr

/-- The loop of `download_files` with running flag `err`
(`error_encountered`): when `err` is already set the body is skipped
(`if !error_encountered`); otherwise the entry is processed and, on a
new error with `abort_on_error`, the loop breaks, leaving the remaining
entries untouched. -/
def downloadFilesGo (abort : Bool) : Bool → List (EntryEnv × List Char) →
    Option (Bool × List EntryResult)
  | err, [] => some (err, [])
  | err, (env, cs) :: rest =>
    if err then
      (downloadFilesGo abort err rest).map (fun p => (p.1, EntryResult.untouched :: p.2))
    else
      match processEntry env cs with
      | none => none
      | some (eErr, file) =>
        if eErr ∧ abort then
          some (eErr, EntryResult.processed eErr file :: rest.map (fun _ => EntryResult.untouched))
        else
          (downloadFilesGo abort eErr rest).map
            (fun p => (p.1, EntryResult.processed eErr file :: p.2))

/-- Function `download_files`: iterate the entries with `error_encountered`
initially `false`; returns the final `error_encountered` and the
per-entry outcomes (`none` = a panic escaped the loop). -/
def download_files (entries : List (EntryEnv × List Char)) (abort : Bool) :
    Option (Bool × List EntryResult) :=
  downloadFilesGo abort false entries

/-! ### Manifest types and `create_file_list` (lib.rs lines 15-56, 228-268) -/

/-- The fields of the raw API `DataEntry` that `create_file_list` reads
(`key`, `checksum`, `links.content`, `size`); the other fields are
never used. -/
structure DataEntry where
  key : List Char
  checksum : List Char
  url : List Char
  size : Nat
  deriving DecidableEq, Repr

/-- The parsed API response shape. -/
structure ZenodoMetaData where
  enabled : Bool
  entries : Option (List DataEntry)
  deriving DecidableEq, Repr

/-- One normalized manifest entry (`FileData`). -/
structure FileData where
  filename : List Char
  checksum : List Char
  url : List Char
  size : Nat
  deriving DecidableEq, Repr

/-- The normalized manifest (`FileList`). -/
structure FileList where
  data_available : Bool
  file_list : List FileData
  deriving DecidableEq, Repr

/-- The sentinel returned when no usable data is available
(`empty_response` in the source). -/
def emptyResponse : FileList :=
  { data_available := false,
    file_list := [{ filename := "empty".toList, checksum := "empty".toList,
                    url := "empty".toList, size := 0 }] }

/-- The UTF-8 byte length of a string modelled as its character list
(Rust `str::len`). -/
def byteLength : List Char → Nat
  | [] => 0
  | a :: t => a.utf8Size + byteLength t

/-- Rust `str::find` for a single character: the BYTE index of the
first occurrence of `c`, or `none`. -/
def strFindByte (c : Char) : List Char → Option Nat
  | [] => none
  | a :: rest => if a = c then some 0 else (strFindByte c rest).map (· + a.utf8Size)

/-- Rust byte slicing of a string, the suffix form `s[n..]`: drop the
first `n` bytes.  Panics (`none`) when `n` exceeds the byte length or
falls strictly inside the UTF-8 encoding of a character (a
char-boundary error). -/
def byteDrop : Nat → List Char → Option (List Char)
  | n, [] => if n = 0 then some [] else none
  | n, a :: t =>
    if n = 0 then some (a :: t)
    else if a.utf8Size ≤ n then byteDrop (n - a.utf8Size) t else none

/-- The checksum normalization of `create_file_list`:
`start_pos_checksum = checksum.find(":").unwrap_or(0)` followed by the
byte slice `checksum[start_pos_checksum+1..]`.  The slice panics
(`none`) when `start_pos_checksum + 1` exceeds the byte length — the
empty no-colon string — or is not a character boundary — a no-colon
string whose first character is longer than one byte. -/
def normalizeChecksum (s : List Char) : Option (List Char) :=
  byteDrop ((strFindByte ':' s).getD 0 + 1) s

/-- The condition under which the checksum slice panics: an empty
checksum (byte index 1 out of bounds) or a colon-free checksum whose
first character occupies more than one UTF-8 byte (byte index 1 is not
a character boundary). -/
def checksumPanics (s : List Char) : Prop :=
  s = [] ∨ (':' ∉ s ∧ ∀ a t, s = a :: t → a.utf8Size ≠ 1)

/-- Normalize one raw entry into a `FileData` (the loop body of
`create_file_list`); `none` when the checksum slice panics. -/
def normalizeEntry (e : DataEntry) : Option FileData :=
  (normalizeChecksum e.checksum).map
    (fun cs => { filename := e.key, checksum := cs, url := e.url, size := e.size })

/-- The `for entry in meta_data.entries.iter().flatten()` loop of
`create_file_list`: push the normalized entries in order, propagating the
panic (`none`) of the first entry whose checksum slice is out of bounds. -/
def normalizeEntries : List DataEntry → Option (List FileData)
  | [] => some []
  | e :: rest =>
    match normalizeEntry e with
    | none => none
    | some fd => (normalizeEntries rest).map (fd :: ·)

/-- Function `create_file_list`: when `enabled` and entries are present, normalize
each entry in order (`none` = the panic of the checksum slice); an empty
normalized list yields the unavailable sentinel. -/
def create_file_list (meta : ZenodoMetaData) : Option FileList :=
  let tmp :=
    if meta.enabled && meta.entries.isSome then normalizeEntries (meta.entries.getD [])
    else some []
  tmp.map (fun l => if l.isEmpty then emptyResponse
                    else { data_available := true, file_list := l })

/-! ### `parse_json_response`, `download_record_meta` (lib.rs lines 183-226) -/

/-- Outcome of the manifest HTTP GET: a transport failure, or a response
with a status code and a body.  The body is `none` when reading the
response text fails, `some none` when the text is not valid
`ZenodoMetaData` JSON, and `some (some m)` when it parses to `m`. -/
inductive HttpResult where
  | failed
  | response (status : Nat) (body : Option (Option ZenodoMetaData))
  deriving DecidableEq, Repr

/-- The `enabled: false, entries: None` dummy used on every failure path. -/
def dummyResponse : ZenodoMetaData := { enabled := false, entries := none }

/-- Function `parse_json_response`: only a status-200 response with readable,
parseable text yields parsed metadata; everything else yields the dummy. -/
def parse_json_response (status : Nat) (body : Option (Option ZenodoMetaData)) : ZenodoMetaData :=
  if status = 200 then
    match body with
    | some (some m) => m
    | some none => dummyResponse
    | none => dummyResponse
  else dummyResponse

/-- Function `download_record_meta`: a transport failure yields the dummy,
otherwise the response is parsed. -/
def download_record_meta (henv : HttpResult) : ZenodoMetaData :=
  match henv with
  | HttpResult.failed => dummyResponse
  | HttpResult.response status body => parse_json_response status body

/-! ### `download_record` (lib.rs lines 270-282) -/

/-- Function `download_record`: fetch the manifest, normalize it, and only when
`data_available` run the download loop; otherwise `error_encountered`
stays `false` and the outcome list is empty (no per-entry processing).
`envs` supplies the per-entry filesystem/network environments, paired
with the manifest entries in order. -/
def download_record (henv : HttpResult) (envs : List EntryEnv) (abort : Bool) :
    Option (Bool × List EntryResult) :=
  let meta := download_record_meta henv
  match create_file_list meta with
  | none => none
  | some fl =>
    if fl.data_available then
      download_files ((fl.file_list.zip envs).map (fun p => (p.2, p.1.checksum))) abort
    else some (false, [])

/-! ### Derived predicates and concrete environments used in the statements -/

/-- The "pre-existing file with a wrong checksum that cannot be deleted"
path of `check_existing_file`: the path holds a file, opening succeeds,
the checksum check fails, and `fs::remove_file` fails. -/
def undeletableBad (ce : CheckEnv) (cs : List Char) : Bool :=
  match ce.existing with
  | none => false
  | some content => ce.openOk && !verify_checksum (readExisting ce content) cs && !ce.deleteOk

/-- MD5 of the byte string `"hello"`, as a lowercase-hex checksum. -/
def goodCs : List Char := "5d41402abc4b2a76b9719d911017c592".toList

/-- Target path empty, every filesystem operation succeeds. -/
def noFileCheckEnv : CheckEnv := { existing := none, openOk := true, readOk := true, deleteOk := true }

/-- A download in which everything succeeds and the response body is the
single chunk `body`. -/
def okDlEnv (body : List Nat) : DlEnv :=
  { getOk := true, pbOk := true, createOk := true, chunks := [some body],
    writeOk := true, flushOk := true, reopenOk := true, rereadOk := true, deleteOk := true }

/-- A download whose initial HTTP GET fails. -/
def failDlEnv : DlEnv := { okDlEnv [] with getOk := false }

/-- A download whose byte stream yields a transport-error item
(`item.unwrap()` panics on it). -/
def streamErrDlEnv : DlEnv := { okDlEnv [] with chunks := [none] }

/-- A download in which only the progress-bar style creation fails. -/
def pbFailDlEnv : DlEnv := { okDlEnv (strBytes "hello") with pbOk := false }

/-- Entry whose target path is empty and whose download fails at the GET. -/
def failEntryEnv : EntryEnv := { ce := noFileCheckEnv, de := failDlEnv }

/-- A parsed manifest whose single entry has an empty checksum string. -/
def metaEmptyCk : ZenodoMetaData :=
  { enabled := true,
    entries := some [{ key := "a".toList, checksum := [], url := "u".toList, size := 1 }] }

/-- A parsed manifest whose single entry has the NON-EMPTY colon-free
checksum `"é"`, whose only character is two UTF-8 bytes wide. -/
def metaMultibyteCk : ZenodoMetaData :=
  { enabled := true,
    entries := some [{ key := "a".toList, checksum := ['é'], url := "u".toList, size := 1 }] }

/-- The same manifest with a well-formed checksum string. -/
def metaGoodCk : ZenodoMetaData :=
  { enabled := true,
    entries := some [{ key := "a".toList, checksum := "md5:x".toList, url := "u".toList,
                       size := 1 }] }

/-- Entry whose target path is empty and whose download delivers `body`. -/
def okEntryEnv (body : List Nat) : EntryEnv := { ce := noFileCheckEnv, de := okDlEnv body }

end ZenodoDl

namespace ZenodoDl

/-! ## Helper lemmas -/

/-- Dropping zero bytes is the identity slice. -/
theorem byteDrop_zero (s : List Char) : byteDrop 0 s = some s := by
  cases s <;> simp [byteDrop]

/-- Dropping at least the first character's bytes consumes that
character whole. -/
theorem byteDrop_cons_skip (a : Char) (t : List Char) (n : Nat) :
    byteDrop (a.utf8Size + n) (a :: t) = byteDrop n t := by
  have hw := a.utf8Size_pos
  rw [byteDrop, if_neg (by omega), if_pos (by omega)]
  congr 1
  omega

/-- Slicing one byte past the first `:` lands exactly on the suffix
after it (`:` is a one-byte character, so the boundary is valid no
matter what precedes it). -/
theorem byteDrop_byteLength_colon (pre suf : List Char) :
    byteDrop (byteLength pre + 1) (pre ++ ':' :: suf) = some suf := by
  induction pre with
  | nil =>
    have h1 : (':').utf8Size = 1 := by decide
    have h2 : byteLength [] + 1 = (':').utf8Size + 0 := by rw [h1, byteLength]
    rw [List.nil_append, h2, byteDrop_cons_skip]
    exact byteDrop_zero suf
  | cons b pre ih =>
    have h2 : byteLength (b :: pre) + 1 = b.utf8Size + (byteLength pre + 1) := by
      rw [byteLength]; omega
    rw [List.cons_append, h2, byteDrop_cons_skip]
    exact ih

/-- Byte index of the first `:` when the string decomposes at its first
occurrence. -/
theorem strFindByte_first_colon (pre suf : List Char) (h : ':' ∉ pre) :
    strFindByte ':' (pre ++ ':' :: suf) = some (byteLength pre) := by
  induction pre with
  | nil => simp [strFindByte, byteLength]
  | cons b pre ih =>
    have hb : b ≠ ':' := fun he => h (he ▸ List.mem_cons_self b pre)
    have h2 : ':' ∉ pre := fun hm => h (List.mem_cons_of_mem b hm)
    rw [List.cons_append, strFindByte, if_neg hb, ih h2, Option.map_some']
    simp only [Option.some.injEq, byteLength]
    omega

/-- A character not in the string is not found. -/
theorem strFindByte_eq_none (c : Char) :
    ∀ s : List Char, c ∉ s → strFindByte c s = none := by
  intro s
  induction s with
  | nil => intro _; rfl
  | cons a t ih =>
    intro h
    have ha : ¬(a = c) := fun he => h (he ▸ List.mem_cons_self a t)
    have h2 : c ∉ t := fun hm => h (List.mem_cons_of_mem a hm)
    rw [strFindByte, if_neg ha, ih h2, Option.map_none']

/-- Every string containing `:` splits at the first occurrence. -/
theorem exists_first_colon : ∀ {s : List Char}, ':' ∈ s →
    ∃ pre suf, s = pre ++ ':' :: suf ∧ ':' ∉ pre := by
  intro s
  induction s with
  | nil => intro h; exact absurd h (List.not_mem_nil ':')
  | cons a t ih =>
    intro h
    by_cases ha : a = ':'
    · subst ha
      exact ⟨[], t, rfl, List.not_mem_nil _⟩
    · have ht : ':' ∈ t := by
        rcases List.mem_cons.mp h with he | ht
        · exact absurd he.symm ha
        · exact ht
      obtain ⟨pre, suf, heq, hpre⟩ := ih ht
      refine ⟨a :: pre, suf, by rw [heq, List.cons_append], fun hm => ?_⟩
      rcases List.mem_cons.mp hm with he | hm2
      · exact ha he.symm
      · exact hpre hm2

/-- Normalization strips everything up to and including the first `:`. -/
theorem normalizeChecksum_colon (pre suf : List Char) (h : ':' ∉ pre) :
    normalizeChecksum (pre ++ ':' :: suf) = some suf := by
  rw [normalizeChecksum, strFindByte_first_colon pre suf h, Option.getD_some,
    byteDrop_byteLength_colon]

/-- On a colon-free non-empty checksum, the slice drops the first
character when it is one byte wide and panics otherwise. -/
theorem normalizeChecksum_no_colon (s : List Char) (h : ':' ∉ s) (a : Char) (t : List Char)
    (hs : s = a :: t) :
    normalizeChecksum s = if a.utf8Size = 1 then some t else none := by
  subst hs
  rw [normalizeChecksum, strFindByte_eq_none ':' _ h, Option.getD_none, byteDrop]
  have hw := a.utf8Size_pos
  rw [if_neg (by omega)]
  by_cases h1 : a.utf8Size = 1
  · rw [if_pos (by omega), if_pos h1, h1]
    exact byteDrop_zero t
  · rw [if_neg (by omega), if_neg h1]

/-- The checksum slice panics exactly on an empty checksum or a
colon-free checksum with a multi-byte first character. -/
theorem normalizeChecksum_eq_none_iff (s : List Char) :
    normalizeChecksum s = none ↔ checksumPanics s := by
  cases s with
  | nil =>
    constructor
    · intro _; exact Or.inl rfl
    · intro _; rfl
  | cons a t =>
    by_cases hc : ':' ∈ a :: t
    · obtain ⟨pre, suf, heq, hpre⟩ := exists_first_colon hc
      rw [heq, normalizeChecksum_colon pre suf hpre]
      constructor
      · intro h; exact Option.noConfusion h
      · rintro (hnil | ⟨hnc, _⟩)
        · exact absurd hnil (by simp)
        · exact absurd (List.mem_append.mpr (Or.inr (List.mem_cons_self _ _))) hnc
    · rw [normalizeChecksum_no_colon (a :: t) hc a t rfl]
      by_cases h1 : a.utf8Size = 1
      · rw [if_pos h1]
        constructor
        · intro h; exact Option.noConfusion h
        · rintro (hnil | ⟨_, hall⟩)
          · exact absurd hnil (by simp)
          · exact absurd h1 (hall a t rfl)
      · rw [if_neg h1]
        constructor
        · intro _
          exact Or.inr ⟨hc, fun b u hbu => by cases hbu; exact h1⟩
        · intro _; rfl

/-! ## Claims -/

/-- C7: `verify_checksum` returns `true` iff the MD5 digest of the whole
file content, rendered as lowercase hex, equals the expected checksum by
exact string comparison; every read error yields `false` (no exception
escapes: the function is total). -/
theorem verify_checksum_spec (bytes : List Nat) (cs : List Char) :
    (verify_checksum (some bytes) cs = true ↔ md5Hex bytes = cs) ∧
    verify_checksum none cs = false := by
  refine ⟨?_, rfl⟩
  simp [verify_checksum]

/-- C2 counterexample: for the colon-free raw checksum `"abc"`, the code
normalizes to `"bc"` (it drops the first character), not to the whole
string unchanged as claimed. -/
theorem normalizeChecksum_no_colon_cex :
    normalizeChecksum "abc".toList = some "bc".toList ∧
    "bc".toList ≠ "abc".toList := by
  decide

/-- C2 amended: when the raw checksum contains `:`, the normalized
checksum is everything strictly after the first `:` (the algorithm tag
and the `:` are discarded).  When it contains no `:`, the byte slice
`checksum[1..]` is taken instead: if the first character is a single
UTF-8 byte, the normalized checksum is the raw string with its FIRST
character removed (not the whole string unchanged); if the first
character is wider than one byte, the slice panics on a char-boundary
error (the empty checksum also panics, see C10). -/
theorem normalizeChecksum_spec (s : List Char) :
    (∀ pre suf, s = pre ++ ':' :: suf → ':' ∉ pre → normalizeChecksum s = some suf) ∧
    (':' ∉ s → ∀ a t, s = a :: t →
      (a.utf8Size = 1 → normalizeChecksum s = some t) ∧
      (a.utf8Size ≠ 1 → normalizeChecksum s = none)) := by
  constructor
  · intro pre suf heq hpre
    rw [heq]
    exact normalizeChecksum_colon pre suf hpre
  · intro hnc a t heq
    rw [normalizeChecksum_no_colon s hnc a t heq]
    constructor
    · intro h1; rw [if_pos h1]
    · intro h1; rw [if_neg h1]

/-- C2 witness: the branches of `normalizeChecksum_spec` at the concrete
checksums `"md5:abc"` (colon present), `"abc"` (colon-free with a
one-byte first character) and `"éa"` (colon-free with a two-byte first
character). -/
theorem normalizeChecksum_spec_witness :
    normalizeChecksum "md5:abc".toList = some "abc".toList ∧
    normalizeChecksum "abc".toList = some "bc".toList ∧
    normalizeChecksum "éa".toList = none := by
  refine ⟨?_, ?_, ?_⟩
  · exact (normalizeChecksum_spec "md5:abc".toList).1 "md5".toList "abc".toList (by decide)
      (by decide)
  · exact ((normalizeChecksum_spec "abc".toList).2 (by decide) 'a' "bc".toList (by decide)).1
      (by decide)
  · exact ((normalizeChecksum_spec "éa".toList).2 (by decide) 'é' "a".toList (by decide)).2
      (by decide)

end ZenodoDl


namespace ZenodoDl

/-- A raw entry fails to normalize exactly when its checksum slice
panics. -/
theorem normalizeEntry_eq_none_iff (e : DataEntry) :
    normalizeEntry e = none ↔ checksumPanics e.checksum := by
  rw [normalizeEntry, Option.map_eq_none']
  exact normalizeChecksum_eq_none_iff e.checksum

/-- The normalization loop panics exactly when some entry's checksum
slice panics. -/
theorem normalizeEntries_eq_none_iff :
    ∀ l : List DataEntry, normalizeEntries l = none ↔ ∃ e ∈ l, checksumPanics e.checksum := by
  intro l
  induction l with
  | nil => simp [normalizeEntries]
  | cons a t ih =>
    rw [normalizeEntries]
    cases ha : normalizeEntry a with
    | none =>
      simp only [true_iff]
      exact ⟨a, List.mem_cons_self a t, (normalizeEntry_eq_none_iff a).mp ha⟩
    | some fd =>
      rw [Option.map_eq_none']
      rw [ih]
      constructor
      · rintro ⟨e, he, hce⟩
        exact ⟨e, List.mem_cons_of_mem a he, hce⟩
      · rintro ⟨e, he, hce⟩
        rcases List.mem_cons.mp he with rfl | he2
        · exact absurd ((normalizeEntry_eq_none_iff e).mpr hce) (by simp [ha])
        · exact ⟨e, he2, hce⟩

/-- C10 counterexample: an enabled manifest whose single entry has the
NON-EMPTY checksum `"é"` still panics — the checksum is colon-free and
its first character is two UTF-8 bytes, so the byte slice
`checksum[1..]` hits a char-boundary error, refuting "for all entries
with a non-empty checksum it returns normally". -/
theorem create_file_list_nonempty_panic_cex :
    create_file_list metaMultibyteCk = none ∧ (['é'] : List Char) ≠ [] := by
  decide

/-- C10 amended: with `enabled = true` and a present entry list,
`create_file_list` (and hence the public `download_record`) panics on
the checksum byte slice exactly when some entry's checksum is the empty
string (index out of bounds) OR is colon-free with a first character
wider than one UTF-8 byte (char-boundary error); when every entry's
checksum contains a `:` or starts with a one-byte character, it returns
normally. -/
theorem create_file_list_panic_iff (meta : ZenodoMetaData) (l : List DataEntry)
    (hen : meta.enabled = true) (hent : meta.entries = some l) :
    create_file_list meta = none ↔ ∃ e ∈ l, checksumPanics e.checksum := by
  rw [create_file_list]
  simp only [hen, hent, Option.isSome_some, Bool.and_self, if_true, Option.getD_some,
    Option.map_eq_none']
  exact normalizeEntries_eq_none_iff l

/-- C10 witness: the amended characterization at concrete manifests —
the empty checksum panics, the non-empty multi-byte colon-free checksum
`"é"` panics, and the checksum `"md5:x"` returns normally. -/
theorem create_file_list_panic_iff_witness :
    create_file_list metaEmptyCk = none ∧
    create_file_list metaMultibyteCk = none ∧
    create_file_list metaGoodCk ≠ none := by
  refine ⟨?_, ?_, ?_⟩
  · exact (create_file_list_panic_iff metaEmptyCk _ rfl rfl).mpr
      ⟨_, List.mem_singleton.mpr rfl, Or.inl rfl⟩
  · exact (create_file_list_panic_iff metaMultibyteCk _ rfl rfl).mpr
      ⟨_, List.mem_singleton.mpr rfl,
        Or.inr ⟨by decide, fun a t h => by cases h; decide⟩⟩
  · intro h
    obtain ⟨e, he, hce⟩ := (create_file_list_panic_iff metaGoodCk _ rfl rfl).mp h
    rw [List.mem_singleton.mp he] at hce
    rcases hce with hnil | ⟨hnc, _⟩
    · exact absurd hnil (by decide)
    · exact hnc (by decide)

/-- C6: the skip decision of `check_existing_file` on every path: missing
or non-regular path, failed open, checksum match, mismatch with
successful deletion (file gone), mismatch with failed deletion (file kept
and download suppressed). -/
theorem check_existing_file_spec (ce : CheckEnv) (cs : List Char) :
    (ce.existing = none → check_existing_file ce cs = (false, none)) ∧
    (∀ content, ce.existing = some content →
      (ce.openOk = false → check_existing_file ce cs = (false, some content)) ∧
      (ce.openOk = true → verify_checksum (readExisting ce content) cs = true →
        check_existing_file ce cs = (true, some content)) ∧
      (ce.openOk = true → verify_checksum (readExisting ce content) cs = false →
        ce.deleteOk = true → check_existing_file ce cs = (false, none)) ∧
      (ce.openOk = true → verify_checksum (readExisting ce content) cs = false →
        ce.deleteOk = false → check_existing_file ce cs = (true, some content))) := by
  constructor
  · intro h
    rw [check_existing_file, h]
  · intro content h
    refine ⟨?_, ?_, ?_, ?_⟩
    · intro ho
      simp [check_existing_file, h, ho]
    · intro ho hv
      simp [check_existing_file, h, ho, hv]
    · intro ho hv hd
      simp [check_existing_file, h, ho, hv, hd]
    · intro ho hv hd
      simp [check_existing_file, h, ho, hv, hd]

/-- C6 witness: the five paths of `check_existing_file_spec` at concrete
environments (empty path; open failure; a file whose content `"hello"`
matches the checksum; a wrong-content file that deletes; a wrong-content
file that cannot be deleted). -/
theorem check_existing_file_spec_witness :
    check_existing_file ⟨none, true, true, true⟩ goodCs = (false, none) ∧
    check_existing_file ⟨some [], false, true, true⟩ goodCs = (false, some []) ∧
    check_existing_file ⟨some (strBytes "hello"), true, true, true⟩ goodCs =
      (true, some (strBytes "hello")) ∧
    check_existing_file ⟨some [], true, true, true⟩ goodCs = (false, none) ∧
    check_existing_file ⟨some [], true, true, false⟩ goodCs = (true, some []) := by
  refine ⟨?_, ?_, ?_, ?_, ?_⟩
  · exact (check_existing_file_spec _ goodCs).1 rfl
  · exact (((check_existing_file_spec _ goodCs).2 [] rfl).1) rfl
  · exact (((check_existing_file_spec _ goodCs).2 (strBytes "hello") rfl).2.1) rfl (by decide)
  · exact (((check_existing_file_spec _ goodCs).2 [] rfl).2.2.1) rfl (by decide) rfl
  · exact (((check_existing_file_spec _ goodCs).2 [] rfl).2.2.2) rfl (by decide) rfl

end ZenodoDl

namespace ZenodoDl

/-- When `check_existing_file` decides to skip and the entry is not on
the undeletable-bad-file path, the file it leaves at the path (if any)
has the expected digest. -/
theorem check_existing_skip_md5 (ce : CheckEnv) (cs : List Char) (f : Option (List Nat))
    (h : check_existing_file ce cs = (true, f))
    (hnb : undeletableBad ce cs = false) :
    ∀ c, f = some c → md5Hex c = cs := by
  intro c hc
  cases hex : ce.existing with
  | none =>
    rw [check_existing_file, hex] at h
    exact absurd h (by simp)
  | some content =>
    simp only [check_existing_file, hex] at h
    by_cases ho : ce.openOk = true
    · rw [if_pos ho] at h
      by_cases hv : verify_checksum (readExisting ce content) cs = true
      · rw [if_pos hv] at h
        injection h with h1 h2
        rw [← h2] at hc
        injection hc with hc2
        subst hc2
        by_cases hr : ce.readOk = true
        · rw [readExisting, if_pos hr] at hv
          simpa [verify_checksum] using hv
        · rw [readExisting, if_neg hr] at hv
          exact absurd hv (by simp [verify_checksum])
      · rw [if_neg hv] at h
        by_cases hd : ce.deleteOk = true
        · rw [if_pos hd] at h
          injection h with h1 h2
          rw [← h2] at hc
          exact Option.noConfusion hc
        · exfalso
          rw [undeletableBad, hex] at hnb
          simp only [Bool.not_eq_true] at hv hd
          simp [ho, hv, hd] at hnb
    · rw [if_neg ho] at h
      injection h with h1 h2
      exact Bool.noConfusion h1

/-- When `download_file` returns `Ok(true)`, the file it leaves at the
path has the expected digest (the final `verify_checksum` succeeded). -/
theorem download_file_ok_true (de : DlEnv) (cs : List Char) (prior f : Option (List Nat))
    (h : download_file de cs prior = some (Except.ok true, f)) :
    ∀ c, f = some c → md5Hex c = cs := by
  intro c hc
  simp only [download_file] at h
  split at h
  · simp at h
  · split at h
    · simp at h
    · split at h
      · simp at h
      · split at h
        · simp at h
        · simp at h
        · rename_i body heq
          split at h
          · simp at h
          · by_cases hro : de.reopenOk = true
            · by_cases hrr : de.rereadOk = true
              · rw [if_pos hro, if_pos hrr] at h
                split at h
                · rename_i hv
                  injection h with h1
                  injection h1 with h3 h4
                  rw [← h4] at hc
                  injection hc with hc2
                  subst hc2
                  simpa [verify_checksum] using hv
                · split at h <;> simp at h
              · rw [if_pos hro, if_neg hrr] at h
                rw [show verify_checksum none cs = false from rfl] at h
                simp only [Bool.false_eq_true, if_false] at h
                split at h <;> simp at h
            · rw [if_neg hro] at h
              simp only [Bool.false_eq_true, if_false] at h
              split at h <;> simp at h

/-- C1 counterexample: a pre-existing empty file whose checksum does not
match the manifest checksum and whose deletion fails is skipped with no
error, yet remains on disk with a digest different from the declared
checksum. -/
theorem entry_invariant_cex :
    processEntry ⟨⟨some [], true, true, false⟩, okDlEnv []⟩ goodCs = some (false, some []) ∧
    md5Hex [] ≠ goodCs := by
  decide

/-- C1 amended: for every manifest entry that completes without error
and is NOT on the pre-existing-wrong-checksum-undeletable path, any file
left at the entry's target path has MD5 digest equal to the declared
checksum (on the undeletable path a wrong-digest file remains on disk
with no error, see the counterexample). -/
theorem entry_invariant_amended (env : EntryEnv) (cs : List Char) (file : Option (List Nat))
    (h : processEntry env cs = some (false, file))
    (hnb : undeletableBad env.ce cs = false) :
    ∀ c, file = some c → md5Hex c = cs := by
  intro c hc
  simp only [processEntry] at h
  cases hck : check_existing_file env.ce cs with
  | mk skip f0 =>
    rw [hck] at h
    cases skip with
    | true =>
      simp only [if_true] at h
      injection h with h1
      injection h1 with h2 h3
      rw [← h3] at hc
      exact check_existing_skip_md5 env.ce cs f0 hck hnb c hc
    | false =>
      simp only [Bool.false_eq_true, if_false] at h
      cases hdl : download_file env.de cs f0 with
      | none => rw [hdl] at h; exact Option.noConfusion h
      | some r =>
        rw [hdl] at h
        obtain ⟨res, f1⟩ := r
        cases res with
        | ok success =>
          simp only [] at h
          injection h with h1
          injection h1 with h2 h3
          have hs : success = true := by
            cases success
            · exact absurd h2 (by simp)
            · rfl
          subst hs
          rw [← h3] at hc
          exact download_file_ok_true env.de cs f0 f1 hdl c hc
        | error e =>
          simp only [] at h
          injection h with h1
          injection h1 with h2 h3
          exact Bool.noConfusion h2

/-- C1 witness: a fresh download of the body `"hello"` against its MD5
checksum completes without error, and the theorem yields that the digest
of the file on disk equals the declared checksum. -/
theorem entry_invariant_amended_witness : md5Hex (strBytes "hello") = goodCs :=
  entry_invariant_amended (okEntryEnv (strBytes "hello")) goodCs (some (strBytes "hello"))
    (by decide) (by decide) (strBytes "hello") rfl

end ZenodoDl

namespace ZenodoDl

/-- Once `error_encountered` is set, the loop leaves every remaining
entry untouched and returns `true` (the body is guarded by
`if !error_encountered`). -/
theorem downloadFilesGo_err_true (abort : Bool) :
    ∀ l : List (EntryEnv × List Char),
      downloadFilesGo abort true l = some (true, l.map (fun _ => EntryResult.untouched)) := by
  intro l
  induction l with
  | nil => rfl
  | cons p t ih =>
    obtain ⟨env, cs⟩ := p
    rw [downloadFilesGo]
    simp [ih]

/-- The loop is observationally independent of `abort_on_error` from any
flag state. -/
theorem downloadFilesGo_abort_eq (l : List (EntryEnv × List Char)) :
    ∀ err, downloadFilesGo true err l = downloadFilesGo false err l := by
  induction l with
  | nil => intro err; rfl
  | cons p t ih =>
    intro err
    obtain ⟨env, cs⟩ := p
    cases err with
    | true =>
      rw [downloadFilesGo, downloadFilesGo]
      simp [ih]
    | false =>
      rw [downloadFilesGo, downloadFilesGo]
      simp only [Bool.false_eq_true, if_false]
      cases hp : processEntry env cs with
      | none => rfl
      | some r =>
        obtain ⟨eErr, file⟩ := r
        cases eErr with
        | false => simp [ih]
        | true => simp [downloadFilesGo_err_true]

/-- C5: `download_files` is observationally identical for
`abort_on_error = true` and `abort_on_error = false`: the same entries
are processed, the same per-entry file outcomes arise, and the same
`error_encountered` is returned (once an entry fails, no later entry is
attempted in either mode). -/
theorem download_files_abort_observational (entries : List (EntryEnv × List Char)) :
    download_files entries true = download_files entries false :=
  downloadFilesGo_abort_eq entries false

/-- C3: with `abort_on_error = true`, when the batch reaches entry N with
no prior error and entry N's download fails, every later entry is left
untouched (no existing-file check, no download, no file change) and the
batch returns `error_encountered = true`. -/
theorem download_files_abort_halts (pre post : List (EntryEnv × List Char))
    (env : EntryEnv) (cs : List Char) (preOuts : List EntryResult) (f : Option (List Nat))
    (hpre : download_files pre true = some (false, preOuts))
    (hfail : processEntry env cs = some (true, f)) :
    download_files (pre ++ (env, cs) :: post) true =
      some (true, preOuts ++ EntryResult.processed true f ::
        post.map (fun _ => EntryResult.untouched)) := by
  induction pre generalizing preOuts with
  | nil =>
    rw [download_files, downloadFilesGo] at hpre
    injection hpre with hpre1
    injection hpre1 with hb houts
    subst houts
    rw [List.nil_append, List.nil_append, download_files, downloadFilesGo]
    simp [hfail]
  | cons p ps ih =>
    obtain ⟨penv, pcs⟩ := p
    rw [download_files, downloadFilesGo] at hpre
    simp only [Bool.false_eq_true, if_false] at hpre
    cases hp : processEntry penv pcs with
    | none =>
      rw [hp] at hpre
      exact absurd hpre (by simp)
    | some r =>
      obtain ⟨eErr, pf⟩ := r
      rw [hp] at hpre
      cases eErr with
      | true => simp at hpre
      | false =>
        simp only [Bool.false_eq_true, false_and, if_false] at hpre
        obtain ⟨⟨b, outs⟩, hgo, heq⟩ := Option.map_eq_some'.mp hpre
        injection heq with hb houts
        subst hb
        have hrec := ih outs hgo
        rw [List.cons_append, download_files, downloadFilesGo]
        simp only [Bool.false_eq_true, if_false, hp, false_and]
        rw [download_files] at hrec
        rw [hrec]
        simp only [Option.map_some']
        rw [← houts]
        rfl

/-- C3 witness: a two-entry batch in abort mode whose first entry fails
at the HTTP GET: the second entry is untouched and the batch reports the
error. -/
theorem download_files_abort_halts_witness :
    download_files ([] ++ (failEntryEnv, goodCs) :: [(okEntryEnv [], goodCs)]) true =
      some (true, [] ++ EntryResult.processed true none ::
        [(okEntryEnv [], goodCs)].map (fun _ => EntryResult.untouched)) :=
  download_files_abort_halts [] [(okEntryEnv [], goodCs)] failEntryEnv goodCs [] none
    rfl (by decide)

end ZenodoDl

namespace ZenodoDl

/-- A manifest with `enabled = false`, absent entries, or an empty entry
list normalizes to the unavailable sentinel. -/
theorem create_file_list_unavailable (meta : ZenodoMetaData)
    (h : meta.enabled = false ∨ meta.entries = none ∨ meta.entries = some []) :
    create_file_list meta = some emptyResponse := by
  rw [create_file_list]
  rcases h with h | h | h
  · simp [h]
  · simp [h]
  · cases he : meta.enabled <;> simp [h, he, normalizeEntries]

/-- When the normalized manifest is unavailable, `download_record`
returns `errorEncountered = false` with an empty outcome trace (no entry
is processed). -/
theorem download_record_of_unavailable (henv : HttpResult) (envs : List EntryEnv) (abort : Bool)
    (fl : FileList) (hfl : create_file_list (download_record_meta henv) = some fl)
    (hna : fl.data_available = false) :
    download_record henv envs abort = some (false, []) := by
  simp only [download_record]
  rw [hfl]
  simp [hna]

/-- C4: whenever the manifest comes back unavailable — transport failure,
non-200 status, unreadable body, parse failure, `enabled = false`, or
zero normalized entries — `download_record` performs zero per-entry
download attempts (its outcome trace is empty) and returns
`errorEncountered = false`. -/
theorem download_record_unavailable_spec (henv : HttpResult) (envs : List EntryEnv)
    (abort : Bool) :
    (∀ fl, create_file_list (download_record_meta henv) = some fl →
      fl.data_available = false → download_record henv envs abort = some (false, [])) ∧
    (henv = HttpResult.failed → download_record henv envs abort = some (false, [])) ∧
    (∀ st b, henv = HttpResult.response st b → st ≠ 200 →
      download_record henv envs abort = some (false, [])) ∧
    (∀ st, henv = HttpResult.response st none →
      download_record henv envs abort = some (false, [])) ∧
    (∀ st, henv = HttpResult.response st (some none) →
      download_record henv envs abort = some (false, [])) ∧
    ((download_record_meta henv).enabled = false →
      download_record henv envs abort = some (false, [])) ∧
    ((download_record_meta henv).entries = none ∨
        (download_record_meta henv).entries = some [] →
      download_record henv envs abort = some (false, [])) := by
  have main : ∀ fl, create_file_list (download_record_meta henv) = some fl →
      fl.data_available = false → download_record henv envs abort = some (false, []) :=
    fun fl hfl hna => download_record_of_unavailable henv envs abort fl hfl hna
  refine ⟨main, ?_, ?_, ?_, ?_, ?_, ?_⟩
  · rintro rfl
    exact main _ (create_file_list_unavailable _ (Or.inl rfl)) rfl
  · rintro st b rfl hst
    have hm : download_record_meta (HttpResult.response st b) = dummyResponse := by
      simp only [download_record_meta, parse_json_response, if_neg hst]
    exact main _ (by rw [hm]; exact create_file_list_unavailable _ (Or.inl rfl)) rfl
  · rintro st rfl
    have hm : download_record_meta (HttpResult.response st none) = dummyResponse := by
      simp only [download_record_meta, parse_json_response]
      split <;> rfl
    exact main _ (by rw [hm]; exact create_file_list_unavailable _ (Or.inl rfl)) rfl
  · rintro st rfl
    have hm : download_record_meta (HttpResult.response st (some none)) = dummyResponse := by
      simp only [download_record_meta, parse_json_response]
      split <;> rfl
    exact main _ (by rw [hm]; exact create_file_list_unavailable _ (Or.inl rfl)) rfl
  · intro hen
    exact main _ (create_file_list_unavailable _ (Or.inl hen)) rfl
  · intro hent
    exact main _ (create_file_list_unavailable _ (Or.inr hent)) rfl

/-- C4 witness: a transport failure on the manifest fetch gives zero
attempts and no error. -/
theorem download_record_unavailable_spec_witness :
    download_record HttpResult.failed [] true = some (false, []) :=
  (download_record_unavailable_spec HttpResult.failed [] true).2.1 rfl

/-- C8: a transport error arriving mid-stream while a file body is being
downloaded is fatal — `item.unwrap()` panics and the panic escapes the
whole batch (modelled as `none`), instead of degrading to a per-file
failure as the spec requires. -/
theorem download_files_stream_error_fatal :
    download_files [(⟨noFileCheckEnv, streamErrDlEnv⟩, goodCs)] false = none := by
  decide

/-- C9: a failure to create the progress-bar style aborts the download
through the `?` operator before any byte is written — in the identical
environment with a working indicator the download completes and
verifies.  The download outcome is therefore NOT independent of the
progress indicator. -/
theorem download_file_pb_failure_aborts :
    download_file pbFailDlEnv goodCs none = some (Except.error DlError.pbErr, none) ∧
    download_file (okDlEnv (strBytes "hello")) goodCs none =
      some (Except.ok true, some (strBytes "hello")) :=
  ⟨rfl, rfl⟩

end ZenodoDl
